import Mathlib

/-!
Verification development for the portfolio snapshot backfill script
(`scripts/calculate-snapshots.py`).

The script is embedded shallowly over exact rationals: every Python float
value (prices, units, amounts, share counts, cost bases) becomes a `Rat`,
so the arithmetic identities below hold exactly where the implementation
holds them up to floating-point error.  Python `round(x, n)` (round-half-even
on binary floats) is modelled as round-half-up on exact rationals;
the two agree except at exact decimal half-way ties, which none of the
concrete figures below hits.  Python dicts are modelled as
insertion-ordered association lists (`List (String \u00d7 _)`), matching the
iteration order the script relies on.
-/

def HISTORICAL_PRICES : List (String × List (String × ℚ)) := [
  ("VTI", [
    ("2025-09-02", 315.99), ("2025-09-03", 317.33), ("2025-09-04", 320.14),
    ("2025-09-05", 319.55), ("2025-09-08", 320.57), ("2025-09-09", 320.98),
    ("2025-09-10", 321.80), ("2025-09-11", 324.78), ("2025-09-12", 324.31),
    ("2025-09-15", 325.89), ("2025-09-16", 325.45), ("2025-09-17", 325.16),
    ("2025-09-18", 327.21), ("2025-09-19", 328.44), ("2025-09-22", 329.86),
    ("2025-09-23", 328.09), ("2025-09-24", 326.89), ("2025-09-25", 325.14),
    ("2025-09-26", 327.18), ("2025-09-29", 327.10), ("2025-09-30", 328.17),
    ("2025-10-01", 329.31), ("2025-10-02", 329.79), ("2025-10-03", 329.97),
    ("2025-10-06", 331.21), ("2025-10-07", 329.62), ("2025-10-08", 331.81),
    ("2025-10-09", 330.66), ("2025-10-10", 321.80), ("2025-10-13", 326.93),
    ("2025-10-14", 326.83), ("2025-10-15", 328.38), ("2025-10-16", 325.77),
    ("2025-10-17", 327.30), ("2025-10-20", 330.95), ("2025-10-21", 330.91),
    ("2025-10-22", 328.90), ("2025-10-23", 331.01), ("2025-10-24", 333.71),
    ("2025-10-27", 337.43), ("2025-10-28", 338.51)
  ]),
  ("QQQM", [
    ("2025-09-02", 232.85), ("2025-09-03", 234.63), ("2025-09-04", 236.79),
    ("2025-09-05", 237.15), ("2025-09-08", 238.28), ("2025-09-09", 238.99),
    ("2025-09-10", 239.06), ("2025-09-11", 240.46), ("2025-09-12", 241.50),
    ("2025-09-15", 243.60), ("2025-09-16", 243.38), ("2025-09-17", 242.89),
    ("2025-09-18", 245.12), ("2025-09-19", 246.79), ("2025-09-22", 247.90),
    ("2025-09-23", 246.25), ("2025-09-24", 245.39), ("2025-09-25", 244.33),
    ("2025-09-26", 245.37), ("2025-09-29", 246.48), ("2025-09-30", 247.12),
    ("2025-10-01", 248.33), ("2025-10-02", 249.33), ("2025-10-03", 248.32),
    ("2025-10-06", 250.17), ("2025-10-07", 248.85), ("2025-10-08", 251.71),
    ("2025-10-09", 251.41), ("2025-10-10", 242.67), ("2025-10-13", 247.83),
    ("2025-10-14", 246.21), ("2025-10-15", 247.88), ("2025-10-16", 247.00),
    ("2025-10-17", 248.61), ("2025-10-20", 251.76), ("2025-10-21", 251.69),
    ("2025-10-22", 249.26), ("2025-10-23", 251.39), ("2025-10-24", 254.02),
    ("2025-10-27", 258.58), ("2025-10-28", 261.02)
  ]),
  ("SCHD", [
    ("2025-09-02", 27.84), ("2025-09-03", 27.60), ("2025-09-04", 27.69),
    ("2025-09-05", 27.64), ("2025-09-08", 27.44), ("2025-09-09", 27.45),
    ("2025-09-10", 27.50), ("2025-09-11", 27.72), ("2025-09-12", 27.48),
    ("2025-09-15", 27.34), ("2025-09-16", 27.42), ("2025-09-17", 27.47),
    ("2025-09-18", 27.45), ("2025-09-19", 27.33), ("2025-09-22", 27.25),
    ("2025-09-23", 27.40), ("2025-09-24", 27.16), ("2025-09-25", 26.99),
    ("2025-09-26", 27.21), ("2025-09-29", 27.10), ("2025-09-30", 27.30),
    ("2025-10-01", 27.53), ("2025-10-02", 27.34), ("2025-10-03", 27.41),
    ("2025-10-06", 27.34), ("2025-10-07", 27.28), ("2025-10-08", 27.18),
    ("2025-10-09", 27.00), ("2025-10-10", 26.54), ("2025-10-13", 26.63),
    ("2025-10-14", 26.87), ("2025-10-15", 26.78), ("2025-10-16", 26.57),
    ("2025-10-17", 26.79), ("2025-10-20", 26.99), ("2025-10-21", 27.07),
    ("2025-10-22", 26.99), ("2025-10-23", 27.03), ("2025-10-24", 27.03),
    ("2025-10-27", 27.12), ("2025-10-28", 27.03)
  ]),
  ("DES", [
    ("2025-09-02", 33.82), ("2025-09-03", 33.89), ("2025-09-04", 34.36),
    ("2025-09-05", 34.38), ("2025-09-08", 34.28), ("2025-09-09", 33.91),
    ("2025-09-10", 33.86), ("2025-09-11", 34.49), ("2025-09-12", 34.07),
    ("2025-09-15", 34.07), ("2025-09-16", 33.97), ("2025-09-17", 33.98),
    ("2025-09-18", 34.54), ("2025-09-19", 34.03), ("2025-09-22", 34.02),
    ("2025-09-23", 34.08), ("2025-09-24", 33.90), ("2025-09-25", 33.57),
    ("2025-09-26", 33.84), ("2025-09-29", 33.65), ("2025-09-30", 33.68),
    ("2025-10-01", 33.70), ("2025-10-02", 33.61), ("2025-10-03", 33.79),
    ("2025-10-06", 33.75), ("2025-10-07", 33.49), ("2025-10-08", 33.52),
    ("2025-10-09", 33.19), ("2025-10-10", 32.32), ("2025-10-13", 32.91),
    ("2025-10-14", 33.55), ("2025-10-15", 33.50), ("2025-10-16", 32.92),
    ("2025-10-17", 33.03), ("2025-10-20", 33.55), ("2025-10-21", 33.53),
    ("2025-10-22", 33.53), ("2025-10-23", 33.64), ("2025-10-24", 33.89),
    ("2025-10-27", 33.74), ("2025-10-28", 33.44)
  ]),
  ("VOO", [
    ("2025-09-02", 588.71), ("2025-09-03", 591.72), ("2025-09-04", 596.59),
    ("2025-09-05", 594.96), ("2025-09-08", 596.50), ("2025-09-09", 597.95),
    ("2025-09-10", 599.68), ("2025-09-11", 604.57), ("2025-09-12", 604.44),
    ("2025-09-15", 607.59), ("2025-09-16", 606.79), ("2025-09-17", 606.09),
    ("2025-09-18", 608.94), ("2025-09-19", 611.78), ("2025-09-22", 614.76),
    ("2025-09-23", 611.54), ("2025-09-24", 609.50), ("2025-09-25", 606.59),
    ("2025-09-26", 610.16), ("2025-09-29", 610.13), ("2025-09-30", 612.38),
    ("2025-10-01", 614.57), ("2025-10-02", 615.25), ("2025-10-03", 615.30),
    ("2025-10-06", 617.40), ("2025-10-07", 615.20), ("2025-10-08", 618.77),
    ("2025-10-09", 617.10), ("2025-10-10", 600.51), ("2025-10-13", 609.61),
    ("2025-10-14", 608.75), ("2025-10-15", 611.43), ("2025-10-16", 607.39),
    ("2025-10-17", 610.76), ("2025-10-20", 617.17), ("2025-10-21", 617.09),
    ("2025-10-22", 613.97), ("2025-10-23", 617.44), ("2025-10-24", 622.55),
    ("2025-10-27", 630.00), ("2025-10-28", 632.72)
  ])
]

/-- Map fund names to ticker symbols (`FUND_TICKER_MAP` in the script). -/
def FUND_TICKER_MAP : List (String × String) := [
  ("VTI", "VTI"),
  ("QQQM", "QQQM"),
  ("SCHD", "SCHD"),
  ("DES", "DES"),
  ("0899 Vanguard 500 Index Fund Adm", "VOO")
]

/-- Conversion ratio for the Voya 0899 fund. -/
def VOYA_CONVERSION_RATIO : ℚ := 15.577

/-- The single alias whose table price is rescaled. -/
def voyaAlias : String := "0899 Vanguard 500 Index Fund Adm"

/-- Price-table lookup: the script reads HISTORICAL_PRICES.get with the
ticker, defaulting to an empty table, then .get with the date string. -/
def priceFor (ticker date_str : String) : Option ℚ :=
  ((HISTORICAL_PRICES.lookup ticker).getD []).lookup date_str

/-- The get_closing_price function of the script: resolve the fund name through the
alias table, look the ticker and date up in the static price table, and
rescale the price for the one Voya alias. -/
def get_closing_price (fund_name date_str : String) : Option ℚ :=
  match FUND_TICKER_MAP.lookup fund_name with
  | none => none
  | some ticker =>
    match priceFor ticker date_str with
    | none => none
    | some price =>
      some (if fund_name = voyaAlias then price / VOYA_CONVERSION_RATIO else price)

/-- One transaction row (columns of `transactions_rows.csv`). -/
structure Tx where
  date : String
  fund : String
  money_source : String
  activity : String
  units : ℚ
  unit_price : ℚ
  amount : ℚ
  deriving DecidableEq, Repr

/-- One tracked position: the value stored in the positions dict of the script. -/
structure Position where
  fund : String
  account : String
  shares : ℚ
  cost_basis : ℚ
  deriving DecidableEq, Repr

/-- The share/cost-basis update in the main loop of the script:
acquisitions add `|amount|` to the cost basis and `units` to the shares;
disposals remove basis at the current average cost, clamping both fields
at zero; anything else is a no-op. -/
def updatePosition (pos : Position) (units amount : ℚ) : Position :=
  if 0 < units then
    { pos with cost_basis := pos.cost_basis + |amount|, shares := pos.shares + units }
  else if units < 0 ∧ 0 < pos.shares then
    let avg_cost := if 0 < pos.shares then pos.cost_basis / pos.shares else 0
    let cost_reduction := avg_cost * min |units| pos.shares
    { pos with cost_basis := max 0 (pos.cost_basis - cost_reduction),
               shares := max 0 (pos.shares - |units|) }
  else
    pos

/-- The dict key of a transaction: its fund and money source joined by a
double-bar separator. -/
def txKey (tx : Tx) : String := tx.fund ++ "||" ++ tx.money_source

/-- Apply one transaction to the `positions` map: update the entry with the
key of the transaction, creating it (zero shares, zero basis, appended in
insertion order) when absent. -/
def applyTx (positions : List (String × Position)) (tx : Tx) : List (String × Position) :=
  match positions.lookup (txKey tx) with
  | some _ =>
    positions.map fun kp =>
      if kp.1 = txKey tx then (kp.1, updatePosition kp.2 tx.units tx.amount) else kp
  | none =>
    positions ++ [(txKey tx,
      updatePosition { fund := tx.fund, account := tx.money_source,
                       shares := 0, cost_basis := 0 } tx.units tx.amount)]

/-- Replay a list of transactions in order. -/
def applyTxs (positions : List (String × Position)) (txs : List Tx) :
    List (String × Position) :=
  txs.foldl applyTx positions

/-- Positions with `|shares|` below this bound are excluded from valuation. -/
def epsilon : ℚ := 0.0001

/-- Rounding to 2 decimal places on exact rationals. -/
def round2 (x : ℚ) : ℚ := (round (x * 100) : ℤ) / 100

/-- Rounding to 4 decimal places on exact rationals. -/
def round4 (x : ℚ) : ℚ := (round (x * 10000) : ℤ) / 10000

/-- One row of the holdings output (the price-source tag, the constant
string "historical", is omitted). -/
structure Holding where
  snapshot_date : String
  fund : String
  account_name : String
  shares : ℚ
  unit_price : ℚ
  market_value : ℚ
  cost_basis : ℚ
  gain_loss : ℚ
  deriving DecidableEq, Repr

/-- The holding record the loop appends for a position that has a price. -/
def mkHolding (date : String) (pos : Position) (price : ℚ) : Holding :=
  { snapshot_date := date,
    fund := pos.fund,
    account_name := pos.account,
    shares := pos.shares,
    unit_price := price,
    market_value := pos.shares * price,
    cost_basis := pos.cost_basis,
    gain_loss := pos.shares * price - pos.cost_basis }

/-- The contribution of one position to the valuation of a date: skipped when its
shares are below `epsilon` or no closing price resolves. -/
def holdingOf (date : String) (pos : Position) : Option Holding :=
  if |pos.shares| < epsilon then none
  else
    match get_closing_price pos.fund date with
    | none => none
    | some price => some (mkHolding date pos price)

/-- The holdings emitted for one date, in position insertion order. -/
def holdingsForDate (positions : List (String × Position)) (date : String) :
    List Holding :=
  positions.filterMap fun kp => holdingOf date kp.2

/-- One row of the portfolio output (the constant snapshot-source and
market-status tags are omitted). -/
structure PortfolioSnapshot where
  snapshot_date : String
  total_market_value : ℚ
  total_cost_basis : ℚ
  total_gain_loss : ℚ
  total_gain_loss_percent : ℚ
  deriving DecidableEq, Repr

/-- The portfolio snapshot built from the holdings of one date:
totals are the running sums accumulated over the emitted holdings. -/
def mkPortfolio (date : String) (hs : List Holding) : PortfolioSnapshot :=
  let total_market_value := (hs.map Holding.market_value).sum
  let total_cost_basis := (hs.map Holding.cost_basis).sum
  let total_gain_loss := total_market_value - total_cost_basis
  let pct := if 0 < total_cost_basis then total_gain_loss / total_cost_basis * 100 else 0
  { snapshot_date := date,
    total_market_value := round2 total_market_value,
    total_cost_basis := round2 total_cost_basis,
    total_gain_loss := round2 total_gain_loss,
    total_gain_loss_percent := round4 pct }

/-- A portfolio snapshot is produced only when the date yielded at least
one holding. -/
def portfolioOf (date : String) (hs : List Holding) : Option PortfolioSnapshot :=
  if hs.isEmpty then none else some (mkPortfolio date hs)

/-- The transactions dated exactly at the given date, in input order (the
per-date grouping of the script). -/
def txsFor (txs : List Tx) (date : String) : List Tx :=
  txs.filter fun t => t.date = date

/-- The date loop of main: for each date apply the transactions of that date,
value the positions, and emit the holdings of the date and (when nonempty)
portfolio snapshot. -/
def runAux (txs : List Tx) (positions : List (String × Position)) :
    List String → List PortfolioSnapshot × List Holding
  | [] => ([], [])
  | d :: ds =>
    let positions2 := applyTxs positions (txsFor txs d)
    let hs := holdingsForDate positions2 d
    let rest := runAux txs positions2 ds
    ((portfolioOf d hs).toList ++ rest.1, hs ++ rest.2)

/-- The whole run: replay the transactions over the date range starting from
an empty position map, collecting both output collections. -/
def runSnapshots (txs : List Tx) (dates : List String) :
    List PortfolioSnapshot × List Holding :=
  runAux txs [] dates

/-- Restriction of the ledger update to a single position: replay a list of
transactions against one position record (all transactions of one key). -/
def applyToPosition (p : Position) (txs : List Tx) : Position :=
  txs.foldl (fun q t => updatePosition q t.units t.amount) p

/-- The raw table price a fund name resolves to, before the Voya rescaling:
alias-table resolution followed by the price-table lookup. -/
def raw_table_price (fund_name date_str : String) : Option ℚ :=
  match FUND_TICKER_MAP.lookup fund_name with
  | none => none
  | some ticker => priceFor ticker date_str

/-- The ledger invariant: shares and cost basis are nonnegative, and a fully
liquidated position carries no residual basis. -/
def PosInv (p : Position) : Prop :=
  0 ≤ p.shares ∧ 0 ≤ p.cost_basis ∧ (p.shares = 0 → p.cost_basis = 0)

/-- Example transaction: acquire 10 VTI units for 3000 on 2025-09-02. -/
def exTx : Tx :=
  { date := "2025-09-02", fund := "VTI", money_source := "Brokerage",
    activity := "buy", units := 10, unit_price := 315.99, amount := -3000 }

/-- Example disposal: sell all 10 VTI units on 2025-09-03. -/
def sellTx : Tx :=
  { date := "2025-09-03", fund := "VTI", money_source := "Brokerage",
    activity := "sell", units := -10, unit_price := 315, amount := 3150 }

/-- The position reached by `exTx` alone. -/
def exPos : Position :=
  { fund := "VTI", account := "Brokerage", shares := 10, cost_basis := 3000 }

/-- The single snapshot date used in the example runs. -/
def exDates : List String := ["2025-09-02"]

/-- The holding row of the example run. -/
def exHolding : Holding :=
  { snapshot_date := "2025-09-02", fund := "VTI", account_name := "Brokerage",
    shares := 10, unit_price := 315.99, market_value := 3159.9,
    cost_basis := 3000, gain_loss := 159.9 }

/-- The portfolio row of the example run. -/
def exPS : PortfolioSnapshot :=
  { snapshot_date := "2025-09-02", total_market_value := 3159.9,
    total_cost_basis := 3000, total_gain_loss := 159.9,
    total_gain_loss_percent := 5.33 }

/-- Fractional-share transaction used to exhibit the rounding of totals. -/
def fracTx : Tx :=
  { date := "2025-09-02", fund := "VTI", money_source := "Brokerage",
    activity := "buy", units := 0.001, unit_price := 315.99, amount := -3 }

/-- First transaction of the key-collision pair: fund "A||B", account "C". -/
def collTxA : Tx :=
  { date := "2025-09-02", fund := "A||B", money_source := "C",
    activity := "buy", units := 1, unit_price := 10, amount := -10 }

/-- Second transaction of the key-collision pair: fund "A", account "B||C". -/
def collTxB : Tx :=
  { date := "2025-09-02", fund := "A", money_source := "B||C",
    activity := "buy", units := 1, unit_price := 20, amount := -20 }

/-- The position reached by `fracTx` alone. -/
def fracPos : Position :=
  { fund := "VTI", account := "Brokerage", shares := 0.001, cost_basis := 3 }

/-- The holding row of the fractional-share run. -/
def fracHolding : Holding :=
  { snapshot_date := "2025-09-02", fund := "VTI", account_name := "Brokerage",
    shares := 0.001, unit_price := 315.99, market_value := 0.31599,
    cost_basis := 3, gain_loss := -2.68401 }

/-- The portfolio row of the fractional-share run: note the total market
value is rounded to 0.32 although the single holding carries 0.31599. -/
def fracPS : PortfolioSnapshot :=
  { snapshot_date := "2025-09-02", total_market_value := 0.32,
    total_cost_basis := 3, total_gain_loss := -2.68,
    total_gain_loss_percent := -89.467 }

/-- The holdings emitted by a run for one date. -/
def holdingsOn (txs : List Tx) (dates : List String) (d : String) : List Holding :=
  (runSnapshots txs dates).2.filter (fun h => h.snapshot_date == d)

/-! ## Ledger lemmas -/

lemma updatePosition_acq (f a : String) (s c u amt : ℚ) (hu : 0 < u) :
    updatePosition ⟨f, a, s, c⟩ u amt = ⟨f, a, s + u, c + |amt|⟩ := by
  unfold updatePosition
  rw [if_pos hu]

lemma updatePosition_disposal (f a : String) (s c u amt : ℚ) (hs : 0 < s) (hu : u < 0) :
    updatePosition ⟨f, a, s, c⟩ u amt =
      ⟨f, a, max 0 (s - |u|), max 0 (c - c / s * min |u| s)⟩ := by
  unfold updatePosition
  rw [if_neg (not_lt.mpr hu.le), if_pos (show u < 0 ∧ 0 < (Position.mk f a s c).shares from ⟨hu, hs⟩)]
  show (⟨f, a, max 0 (s - |u|),
      max 0 (c - (if 0 < s then c / s else 0) * min |u| s)⟩ : Position) = _
  rw [if_pos hs]

lemma updatePosition_liquidate (f a : String) (s c u amt : ℚ) (hs : 0 < s)
    (hu : u < 0) (hsu : s ≤ |u|) :
    updatePosition ⟨f, a, s, c⟩ u amt = ⟨f, a, 0, 0⟩ := by
  rw [updatePosition_disposal f a s c u amt hs hu]
  rw [min_eq_right hsu, div_mul_cancel₀ _ (ne_of_gt hs), sub_self]
  rw [max_eq_left (sub_nonpos.mpr hsu), max_self]

lemma posInv_update (p : Position) (u amt : ℚ) (h : PosInv p) :
    PosInv (updatePosition p u amt) := by
  obtain ⟨hs, hc, hz⟩ := h
  unfold updatePosition
  split
  · rename_i hu
    refine ⟨by positivity, add_nonneg hc (abs_nonneg _), fun hzero => absurd hzero ?_⟩
    have : 0 < p.shares + u := by positivity
    exact ne_of_gt this
  · split
    · rename_i hcond
      obtain ⟨hu, hps⟩ := hcond
      refine ⟨le_max_left _ _, le_max_left _ _, fun hzero => ?_⟩
      have hle : p.shares ≤ |u| := by
        by_contra hlt
        push_neg at hlt
        have : 0 < p.shares - |u| := sub_pos.mpr hlt
        simp only [max_eq_right this.le] at hzero
        exact absurd hzero (ne_of_gt this)
      have hmin : min |u| p.shares = p.shares := min_eq_right hle
      have hred : (if 0 < p.shares then p.cost_basis / p.shares else 0) * min |u| p.shares
          = p.cost_basis := by
        rw [if_pos hps, hmin, div_mul_cancel₀ _ (ne_of_gt hps)]
      simp only [hred, sub_self, max_self]
    · exact ⟨hs, hc, hz⟩

lemma posInv_applyTx (positions : List (String × Position)) (tx : Tx)
    (h : ∀ kp ∈ positions, PosInv kp.2) :
    ∀ kp ∈ applyTx positions tx, PosInv kp.2 := by
  intro kp hkp
  unfold applyTx at hkp
  rcases hlook : positions.lookup (txKey tx) with _ | p0
  · rw [hlook] at hkp
    rcases List.mem_append.mp hkp with hin | hin
    · exact h kp hin
    · rcases List.mem_singleton.mp hin with rfl
      exact posInv_update _ _ _ ⟨le_refl 0, le_refl 0, fun _ => rfl⟩
  · rw [hlook] at hkp
    rcases List.mem_map.mp hkp with ⟨x, hx, hfx⟩
    by_cases hkey : x.1 = txKey tx
    · rw [if_pos hkey] at hfx
      rcases hfx with rfl
      exact posInv_update _ _ _ (h x hx)
    · rw [if_neg hkey] at hfx
      rcases hfx with rfl
      exact h x hx

lemma posInv_applyTxs (txs : List Tx) :
    ∀ positions : List (String × Position), (∀ kp ∈ positions, PosInv kp.2) →
      ∀ kp ∈ applyTxs positions txs, PosInv kp.2 := by
  induction txs with
  | nil => intro positions h kp hkp; exact h kp hkp
  | cons t ts ih =>
    intro positions h kp hkp
    exact ih (applyTx positions t) (posInv_applyTx positions t h) kp hkp

lemma applyToPosition_acq (txs : List Tx) :
    ∀ p : Position, (∀ t ∈ txs, 0 < t.units) →
      applyToPosition p txs =
        ⟨p.fund, p.account, p.shares + (txs.map Tx.units).sum,
          p.cost_basis + (txs.map fun t => |t.amount|).sum⟩ := by
  induction txs with
  | nil => intro p _; simp [applyToPosition]
  | cons t ts ih =>
    intro p h
    have ht : 0 < t.units := h t (List.mem_cons_self t ts)
    have hts : ∀ x ∈ ts, 0 < x.units := fun x hx => h x (List.mem_cons_of_mem t hx)
    show applyToPosition (updatePosition p t.units t.amount) ts = _
    rcases p with ⟨f, a, s, c⟩
    rw [updatePosition_acq f a s c t.units t.amount ht, ih _ hts]
    simp [add_assoc]

/-! ## Claim theorems (ledger) -/

/-- Claim C1: a disposal against a position with positive shares reduces the
basis by the average cost times the disposed (clamped) units and the shares
by the disposed units, both floored at zero; concretely, disposing 4 units
from a position of 10 shares and basis 3000 uses average cost 300, reduces
the basis by 1200, and yields shares 6 and basis 1800. -/
theorem claim_C1 :
    (∀ (f a : String) (s c u amt : ℚ), 0 < s → 0 ≤ c → u < 0 →
      updatePosition ⟨f, a, s, c⟩ u amt =
        ⟨f, a, max 0 (s - |u|), max 0 (c - c / s * min |u| s)⟩) ∧
    (∀ (f a : String) (amt : ℚ),
      (3000 : ℚ) / 10 = 300 ∧
      (3000 : ℚ) / 10 * min |(-4 : ℚ)| 10 = 1200 ∧
      updatePosition ⟨f, a, 10, 3000⟩ (-4) amt = ⟨f, a, 6, 1800⟩) := by
  constructor
  · intro f a s c u amt hs _ hu
    exact updatePosition_disposal f a s c u amt hs hu
  · intro f a amt
    refine ⟨by norm_num, by rw [abs_of_nonpos (by norm_num)]; norm_num, ?_⟩
    rw [updatePosition_disposal f a 10 3000 (-4) amt (by norm_num) (by norm_num)]
    rw [abs_of_nonpos (by norm_num : (-4:ℚ) ≤ 0)]
    norm_num

/-- Claim C1 witness: the general disposal formula instantiated at the
concrete 10-share, 3000-basis position disposing 4 units. -/
theorem claim_C1_witness :
    updatePosition ⟨"VTI", "Brokerage", 10, 3000⟩ (-4) 1280 =
      ⟨"VTI", "Brokerage", max 0 (10 - |(-4 : ℚ)|),
        max 0 (3000 - 3000 / 10 * min |(-4 : ℚ)| 10)⟩ :=
  claim_C1.1 "VTI" "Brokerage" 10 3000 (-4) 1280 (by norm_num) (by norm_num) (by norm_num)

/-- Claim C2: replaying any transaction sequence from the empty position map
leaves every tracked position with nonnegative shares and basis, and a
disposal of 100 units against a position of 6 shares (any nonnegative basis)
clamps it to zero shares and zero basis. -/
theorem claim_C2 :
    (∀ (txs : List Tx) (kp : String × Position), kp ∈ applyTxs [] txs →
      0 ≤ kp.2.shares ∧ 0 ≤ kp.2.cost_basis) ∧
    (∀ (f a : String) (c amt : ℚ), 0 ≤ c →
      updatePosition ⟨f, a, 6, c⟩ (-100) amt = ⟨f, a, 0, 0⟩) := by
  constructor
  · intro txs kp hkp
    have := posInv_applyTxs txs [] (by intro kp h; cases h) kp hkp
    exact ⟨this.1, this.2.1⟩
  · intro f a c amt _
    refine updatePosition_liquidate f a 6 c (-100) amt (by norm_num) (by norm_num) ?_
    rw [abs_of_nonpos (by norm_num : (-100:ℚ) ≤ 0)]
    norm_num

/-- Claim C2 witness: the invariant read off on the position reached by the
single example acquisition, and the clamp at the concrete over-disposal. -/
theorem claim_C2_witness :
    (0 ≤ exPos.shares ∧ 0 ≤ exPos.cost_basis) ∧
    updatePosition ⟨"VTI", "Brokerage", 6, 1800⟩ (-100) 3150 =
      ⟨"VTI", "Brokerage", 0, 0⟩ := by
  constructor
  · refine claim_C2.1 [exTx] ("VTI||Brokerage", exPos) ?_
    have h10 : (0:ℚ) < 10 := by norm_num
    have habs : |(-3000:ℚ)| = 3000 := by rw [abs_of_nonpos] <;> norm_num
    simp [applyTxs, applyTx, txKey, exTx, List.lookup, updatePosition, h10, habs, exPos]
  · exact claim_C2.2 "VTI" "Brokerage" 1800 3150 (by norm_num)

/-- Claim C3: a disposal that leaves strictly positive shares does not change
the average cost per share of the position. -/
theorem claim_C3 (f a : String) (s c u amt : ℚ) (hs : 0 < s) (hc : 0 ≤ c)
    (hu : u < 0) (hrem : 0 < (updatePosition ⟨f, a, s, c⟩ u amt).shares) :
    (updatePosition ⟨f, a, s, c⟩ u amt).cost_basis /
      (updatePosition ⟨f, a, s, c⟩ u amt).shares = c / s := by
  rw [updatePosition_disposal f a s c u amt hs hu] at hrem ⊢
  have hlt : |u| < s := by
    by_contra hge
    push_neg at hge
    simp only [max_eq_left (sub_nonpos.mpr hge)] at hrem
    exact lt_irrefl _ hrem
  have hmin : min |u| s = |u| := min_eq_left hlt.le
  have hshares : max 0 (s - |u|) = s - |u| := max_eq_right (sub_pos.mpr hlt).le
  have hbasis : c - c / s * min |u| s = c * (s - |u|) / s := by
    rw [hmin]; field_simp; ring
  have hbnn : 0 ≤ c * (s - |u|) / s :=
    div_nonneg (mul_nonneg hc (sub_pos.mpr hlt).le) hs.le
  simp only [hbasis, max_eq_right hbnn, hshares]
  rw [div_div]
  rw [mul_comm s (s - |u|), ← div_div, mul_div_assoc]
  rw [div_self (ne_of_gt (sub_pos.mpr hlt)), mul_one]

/-- Claim C3 witness: disposing 4 of 10 shares at basis 3000 keeps the
average cost at 300. -/
theorem claim_C3_witness :
    0 < (updatePosition ⟨"VTI", "Brokerage", 10, 3000⟩ (-4) 1280).shares ∧
    (updatePosition ⟨"VTI", "Brokerage", 10, 3000⟩ (-4) 1280).cost_basis /
      (updatePosition ⟨"VTI", "Brokerage", 10, 3000⟩ (-4) 1280).shares = 3000 / 10 := by
  have hrem : 0 < (updatePosition (⟨"VTI", "Brokerage", 10, 3000⟩ : Position) (-4) 1280).shares := by
    rw [updatePosition_disposal _ _ _ _ _ _ (by norm_num) (by norm_num)]
    rw [abs_of_nonpos (by norm_num : (-4:ℚ) ≤ 0)]
    norm_num
  exact ⟨hrem, claim_C3 "VTI" "Brokerage" 10 3000 (-4) 1280 (by norm_num) (by norm_num)
    (by norm_num) hrem⟩

/-- Claim C4: replaying acquisitions only, from an empty position, gives a
basis equal to the sum of the absolute transaction amounts and shares equal
to the sum of the transaction units, independently of the order of the
acquisitions. -/
theorem claim_C4 (f a : String) (txs txs2 : List Tx)
    (h : ∀ t ∈ txs, 0 < t.units) (hperm : txs2.Perm txs) :
    (applyToPosition ⟨f, a, 0, 0⟩ txs).shares = (txs.map Tx.units).sum ∧
    (applyToPosition ⟨f, a, 0, 0⟩ txs).cost_basis =
      (txs.map fun t => |t.amount|).sum ∧
    applyToPosition ⟨f, a, 0, 0⟩ txs2 = applyToPosition ⟨f, a, 0, 0⟩ txs := by
  have h2 : ∀ t ∈ txs2, 0 < t.units := fun t ht => h t (hperm.mem_iff.mp ht)
  rw [applyToPosition_acq txs _ h, applyToPosition_acq txs2 _ h2]
  refine ⟨by norm_num, by norm_num, ?_⟩
  rw [(hperm.map Tx.units).sum_eq, (hperm.map fun t => |t.amount|).sum_eq]

/-- Claim C4 witness: two acquisitions replayed in both orders give shares
equal to the unit sum and basis equal to the absolute amount sum. -/
theorem claim_C4_witness :
    (applyToPosition ⟨"VTI", "Brokerage", 0, 0⟩ [exTx, fracTx]).shares =
      ([exTx, fracTx].map Tx.units).sum ∧
    (applyToPosition ⟨"VTI", "Brokerage", 0, 0⟩ [exTx, fracTx]).cost_basis =
      ([exTx, fracTx].map fun t => |t.amount|).sum ∧
    applyToPosition ⟨"VTI", "Brokerage", 0, 0⟩ [fracTx, exTx] =
      applyToPosition ⟨"VTI", "Brokerage", 0, 0⟩ [exTx, fracTx] :=
  claim_C4 "VTI" "Brokerage" [exTx, fracTx] [fracTx, exTx]
    (by intro t ht
        rcases List.mem_pair.mp ht with rfl | rfl
        · show (0:ℚ) < 10
          norm_num
        · show (0:ℚ) < 0.001
          norm_num)
    (List.Perm.swap exTx fracTx [])

/-- Claim C10: under exact arithmetic a position whose shares are zero after
any replayed transaction sequence also carries zero cost basis. -/
theorem claim_C10 (txs : List Tx) (kp : String × Position)
    (hkp : kp ∈ applyTxs [] txs) (hz : kp.2.shares = 0) : kp.2.cost_basis = 0 :=
  (posInv_applyTxs txs [] (by intro kp h; cases h) kp hkp).2.2 hz

/-- Claim C10 witness: a full liquidation (buy 10, sell 10) leaves the
tracked position with zero shares and, by the claim, zero basis. -/
theorem claim_C10_witness :
    ("VTI||Brokerage", (⟨"VTI", "Brokerage", 0, 0⟩ : Position)) ∈
      applyTxs [] [exTx, sellTx] ∧
    (⟨"VTI", "Brokerage", 0, 0⟩ : Position).cost_basis = 0 := by
  have h10 : (0:ℚ) < 10 := by norm_num
  have habs : |(-3000:ℚ)| = 3000 := by rw [abs_of_nonpos] <;> norm_num
  have hmem : ("VTI||Brokerage", (⟨"VTI", "Brokerage", 0, 0⟩ : Position)) ∈
      applyTxs [] [exTx, sellTx] := by
    have h1 : applyTx [] exTx = [("VTI||Brokerage", exPos)] := by
      simp [applyTx, txKey, exTx, List.lookup, updatePosition, h10, habs, exPos]
    have h2 : updatePosition exPos (-10) 3150 = ⟨"VTI", "Brokerage", 0, 0⟩ := by
      show updatePosition (⟨"VTI", "Brokerage", 10, 3000⟩ : Position) (-10) 3150 = _
      refine updatePosition_liquidate "VTI" "Brokerage" 10 3000 (-10) 3150
        (by norm_num) (by norm_num) ?_
      rw [abs_of_nonpos (by norm_num : (-10:ℚ) ≤ 0)]
      norm_num
    show ("VTI||Brokerage", (⟨"VTI", "Brokerage", 0, 0⟩ : Position)) ∈
      applyTx (applyTx [] exTx) sellTx
    rw [h1]
    simp [applyTx, txKey, sellTx, List.lookup, h2]
  exact ⟨hmem, claim_C10 [exTx, sellTx] _ hmem rfl⟩

/-! ## Price oracle lemmas -/

lemma lookup_voyaAlias : FUND_TICKER_MAP.lookup voyaAlias = some "VOO" := by
  simp [FUND_TICKER_MAP, voyaAlias, List.lookup]

/-- Claim C5 (amended): the lookup divides the table price by 15.577 for the
one Voya alias and returns the raw table price for every other name; on
2025-09-02 the alias resolves to the raw price 588.71 and the returned
price 588.71 / 15.577, which is approximately 37.7935. -/
theorem claim_C5 :
    (∀ d, get_closing_price voyaAlias d =
      (raw_table_price voyaAlias d).map (fun p => p / VOYA_CONVERSION_RATIO)) ∧
    (∀ fund d, fund ≠ voyaAlias → get_closing_price fund d = raw_table_price fund d) ∧
    raw_table_price voyaAlias "2025-09-02" = some (588.71 : ℚ) ∧
    get_closing_price voyaAlias "2025-09-02" = some ((588.71 : ℚ) / 15.577) ∧
    round4 ((588.71 : ℚ) / 15.577) = 37.7935 := by
  refine ⟨?_, ?_, ?_, ?_, ?_⟩
  · intro d
    unfold get_closing_price raw_table_price
    rw [lookup_voyaAlias]
    rcases h : priceFor "VOO" d with _ | p
    · simp [h]
    · simp [h]
  · intro fund d hne
    unfold get_closing_price raw_table_price
    rcases h : FUND_TICKER_MAP.lookup fund with _ | t
    · simp
    · rcases h2 : priceFor t d with _ | p
      · simp [h2]
      · simp [h2, hne]
  · simp [raw_table_price, FUND_TICKER_MAP, voyaAlias, priceFor, HISTORICAL_PRICES, List.lookup]
  · simp [get_closing_price, FUND_TICKER_MAP, voyaAlias, priceFor, HISTORICAL_PRICES,
      List.lookup, VOYA_CONVERSION_RATIO]
  · norm_num [round4, round_eq]

/-- Claim C5 witness: the no-conversion branch instantiated at the plain
VTI name on 2025-09-02. -/
theorem claim_C5_witness :
    get_closing_price "VTI" "2025-09-02" = raw_table_price "VTI" "2025-09-02" :=
  claim_C5.2.1 "VTI" "2025-09-02" (by simp [voyaAlias])

/-- Claim C5 counterexample: the returned price for the alias on 2025-09-02
is 588.71 / 15.577 = 37.7935..., not approximately 37.7840 as claimed (it is
off by more than 0.005, while it is within 0.0001 of 37.7935). -/
theorem claim_C5_counterexample :
    get_closing_price voyaAlias "2025-09-02" = some ((588.71 : ℚ) / 15.577) ∧
    ¬ |(588.71 : ℚ) / 15.577 - 37.7840| < 1 / 200 ∧
    |(588.71 : ℚ) / 15.577 - 37.7935| < 1 / 10000 := by
  refine ⟨?_, ?_, ?_⟩
  · simp [get_closing_price, FUND_TICKER_MAP, voyaAlias, priceFor, HISTORICAL_PRICES,
      List.lookup, VOYA_CONVERSION_RATIO]
  · rw [abs_of_nonneg (by norm_num)]
    norm_num
  · rw [abs_of_nonneg (by norm_num)]
    norm_num

/-! ## Lookup framing lemmas -/

lemma lookup_append_single {β : Type} (l : List (String × β)) (k k1 : String) (v : β)
    (hne : k ≠ k1) :
    List.lookup k (l ++ [(k1, v)]) = List.lookup k l := by
  induction l with
  | nil =>
    have hbeq : (k == k1) = false := beq_eq_false_iff_ne.mpr hne
    simp [List.lookup, hbeq]
  | cons a t ih =>
    rcases hka : k == a.1 with _ | _
    · simpa [List.lookup, hka] using ih
    · simp [List.lookup, hka]

lemma lookup_map_update (l : List (String × Position)) (k key : String)
    (g : Position → Position) (hne : k ≠ key) :
    List.lookup k (l.map fun kp => if kp.1 = key then (kp.1, g kp.2) else kp) =
      List.lookup k l := by
  induction l with
  | nil => simp
  | cons a t ih =>
    by_cases hak : a.1 = key
    · have hka : (k == a.1) = false := beq_eq_false_iff_ne.mpr (by rw [hak]; exact hne)
      simp only [List.map_cons, if_pos hak]
      simp [List.lookup, hka, ih]
    · simp only [List.map_cons, if_neg hak]
      rcases hka : k == a.1 with _ | _
      · simpa [List.lookup, hka] using ih
      · simp [List.lookup, hka]

/-- Claim C9 (amended): transactions whose derived keys (fund and account
joined by the double-bar separator) differ update distinct positions —
applying one leaves the entry at the key of the other untouched; distinct
(instrument, account) pairs whose derived keys coincide are merged. -/
theorem claim_C9 (positions : List (String × Position)) (t1 t2 : Tx)
    (hne : txKey t1 ≠ txKey t2) :
    List.lookup (txKey t2) (applyTx positions t1) = List.lookup (txKey t2) positions := by
  unfold applyTx
  rcases hlook : positions.lookup (txKey t1) with _ | p0
  · exact lookup_append_single positions (txKey t2) (txKey t1) _ (Ne.symm hne)
  · exact lookup_map_update positions (txKey t2) (txKey t1)
      (fun q => updatePosition q t1.units t1.amount) (Ne.symm hne)

/-- Claim C9 witness: applying a VTI transaction leaves the entry at the
key of an unrelated transaction unchanged. -/
theorem claim_C9_witness :
    List.lookup (txKey collTxA) (applyTx [] exTx) = List.lookup (txKey collTxA) [] :=
  claim_C9 [] exTx collTxA (by simp [txKey, exTx, collTxA])

/-- Claim C9 counterexample: the pairs ("A||B", "C") and ("A", "B||C")
differ as pairs of strings, yet both transactions land on the single merged
key "A||B||C": after both acquisitions one position holds the combined two
shares and basis 30. -/
theorem claim_C9_counterexample :
    (collTxA.fund, collTxA.money_source) ≠ (collTxB.fund, collTxB.money_source) ∧
    applyTxs [] [collTxA, collTxB] =
      [("A||B||C", ⟨"A||B", "C", 2, 30⟩)] := by
  have h01 : (0:ℚ) < 1 := by norm_num
  have habs10 : |(-10:ℚ)| = 10 := by rw [abs_of_nonpos] <;> norm_num
  have habs20 : |(-20:ℚ)| = 20 := by rw [abs_of_nonpos] <;> norm_num
  constructor
  · simp [collTxA, collTxB]
  · have h1 : applyTx [] collTxA = [("A||B||C", ⟨"A||B", "C", 1, 10⟩)] := by
      simp [applyTx, txKey, collTxA, List.lookup, updatePosition, h01, habs10]
    show applyTx (applyTx [] collTxA) collTxB = _
    rw [h1]
    simp [applyTx, txKey, collTxB, List.lookup, updatePosition, h01, habs20]
    norm_num

/-! ## Valuation skip lemmas -/

lemma holdingOf_none_of_no_price (d : String) (pos : Position)
    (h : get_closing_price pos.fund d = none) : holdingOf d pos = none := by
  unfold holdingOf
  split
  · rfl
  · rw [h]

/-- Claim C6: the price lookup is total and returns NotAvailable exactly for
an unresolvable name or an absent (ticker, date) pair; a position with no
price contributes no holding that date, every emitted holding had a price,
valuation leaves the position state untouched (the positions threaded to
later dates depend only on the transactions), and an unchanged position is
valued again on any date where a price resolves. -/
theorem claim_C6 :
    (∀ fund d, get_closing_price fund d = none ↔
      (FUND_TICKER_MAP.lookup fund = none ∨
       ∃ t, FUND_TICKER_MAP.lookup fund = some t ∧ priceFor t d = none)) ∧
    (∀ (positions : List (String × Position)) (d : String) (h : Holding),
      h ∈ holdingsForDate positions d → get_closing_price h.fund d ≠ none) ∧
    (∀ (d : String) (pos : Position),
      get_closing_price pos.fund d = none → holdingOf d pos = none) ∧
    (∀ (txs : List Tx) (positions : List (String × Position)) (d : String) (ds : List String),
      runAux txs positions (d :: ds) =
        ((portfolioOf d (holdingsForDate (applyTxs positions (txsFor txs d)) d)).toList
            ++ (runAux txs (applyTxs positions (txsFor txs d)) ds).1,
         holdingsForDate (applyTxs positions (txsFor txs d)) d
            ++ (runAux txs (applyTxs positions (txsFor txs d)) ds).2)) ∧
    (∀ (positions : List (String × Position)) (d : String) (kp : String × Position) (p : ℚ),
      kp ∈ positions → ¬(|kp.2.shares| < epsilon) →
      get_closing_price kp.2.fund d = some p →
      mkHolding d kp.2 p ∈ holdingsForDate positions d) := by
  refine ⟨?_, ?_, ?_, ?_, ?_⟩
  · intro fund d
    unfold get_closing_price
    rcases h : FUND_TICKER_MAP.lookup fund with _ | t
    · simp
    · rcases h2 : priceFor t d with _ | p
      · simp [h2]
      · simp [h2]
  · intro positions d h hmem
    rcases List.mem_filterMap.mp hmem with ⟨kp, _, hsome⟩
    unfold holdingOf at hsome
    split at hsome
    · cases hsome
    · rcases hp : get_closing_price kp.2.fund d with _ | p
      · rw [hp] at hsome; cases hsome
      · rw [hp] at hsome
        injection hsome with hh
        subst hh
        show get_closing_price (mkHolding d kp.2 p).fund d ≠ none
        show get_closing_price kp.2.fund d ≠ none
        rw [hp]
        exact fun habs => Option.noConfusion habs
  · exact holdingOf_none_of_no_price
  · intro txs positions d ds
    rfl
  · intro positions d kp p hkp heps hprice
    refine List.mem_filterMap.mpr ⟨kp, hkp, ?_⟩
    unfold holdingOf
    rw [if_neg heps, hprice]

/-- Claim C6 witness: the VTI position is skipped on 2025-09-01 (no table
entry) and valued on 2025-09-02 where a price resolves. -/
theorem claim_C6_witness :
    get_closing_price "VTI" "2025-09-01" = none ∧
    holdingOf "2025-09-01" exPos = none ∧
    mkHolding "2025-09-02" exPos (315.99 : ℚ) ∈
      holdingsForDate [("VTI||Brokerage", exPos)] "2025-09-02" := by
  have hnone : get_closing_price "VTI" "2025-09-01" = none :=
    (claim_C6.1 "VTI" "2025-09-01").mpr
      (Or.inr ⟨"VTI", by simp [FUND_TICKER_MAP, List.lookup],
        by simp [priceFor, HISTORICAL_PRICES, List.lookup]⟩)
  refine ⟨hnone, ?_, ?_⟩
  · exact claim_C6.2.2.1 "2025-09-01" exPos hnone
  · refine claim_C6.2.2.2.2 [("VTI||Brokerage", exPos)] "2025-09-02"
      ("VTI||Brokerage", exPos) (315.99 : ℚ) (List.mem_singleton.mpr rfl) ?_ ?_
    · norm_num [exPos, epsilon]
    · show get_closing_price "VTI" "2025-09-02" = some (315.99 : ℚ)
      simp [get_closing_price, FUND_TICKER_MAP, voyaAlias, priceFor,
        HISTORICAL_PRICES, List.lookup]

/-! ## Aggregation lemmas -/

lemma mkPortfolio_fields (d : String) (hs : List Holding) :
    (mkPortfolio d hs).snapshot_date = d ∧
    (mkPortfolio d hs).total_market_value = round2 ((hs.map Holding.market_value).sum) ∧
    (mkPortfolio d hs).total_cost_basis = round2 ((hs.map Holding.cost_basis).sum) ∧
    (mkPortfolio d hs).total_gain_loss =
      round2 ((hs.map Holding.market_value).sum - (hs.map Holding.cost_basis).sum) ∧
    (mkPortfolio d hs).total_gain_loss_percent =
      round4 (if 0 < (hs.map Holding.cost_basis).sum then
        ((hs.map Holding.market_value).sum - (hs.map Holding.cost_basis).sum)
          / (hs.map Holding.cost_basis).sum * 100 else 0) :=
  ⟨rfl, rfl, rfl, rfl, rfl⟩

lemma round4_zero : round4 0 = 0 := by
  norm_num [round4]

lemma portfolioOf_some (d : String) (hs : List Holding) (ps : PortfolioSnapshot)
    (h : portfolioOf d hs = some ps) : hs ≠ [] ∧ ps = mkPortfolio d hs := by
  unfold portfolioOf at h
  split at h
  · cases h
  · rename_i hne
    injection h with h
    exact ⟨fun hnil => hne (by rw [hnil]; rfl), h.symm⟩

lemma portfolioOf_of_ne_nil (d : String) (hs : List Holding) (h : hs ≠ []) :
    portfolioOf d hs = some (mkPortfolio d hs) := by
  unfold portfolioOf
  rcases hs with _ | ⟨a, t⟩
  · exact absurd rfl h
  · rfl

lemma holdingOf_date (d : String) (pos : Position) (h : Holding)
    (hh : holdingOf d pos = some h) : h.snapshot_date = d := by
  unfold holdingOf at hh
  split at hh
  · cases hh
  · rcases hp : get_closing_price pos.fund d with _ | p
    · rw [hp] at hh; cases hh
    · rw [hp] at hh
      injection hh with hh
      rw [← hh]
      rfl

lemma holdingsForDate_date (positions : List (String × Position)) (d : String) :
    ∀ h ∈ holdingsForDate positions d, h.snapshot_date = d := by
  intro h hmem
  rcases List.mem_filterMap.mp hmem with ⟨kp, _, hsome⟩
  exact holdingOf_date d kp.2 h hsome

lemma runAux_holding_date (txs : List Tx) :
    ∀ (dates : List String) (positions : List (String × Position)),
      ∀ h ∈ (runAux txs positions dates).2, h.snapshot_date ∈ dates := by
  intro dates
  induction dates with
  | nil => intro positions h hh; simp [runAux] at hh
  | cons d ds ih =>
    intro positions h hh
    have hrun : runAux txs positions (d :: ds) =
        ((portfolioOf d (holdingsForDate (applyTxs positions (txsFor txs d)) d)).toList
            ++ (runAux txs (applyTxs positions (txsFor txs d)) ds).1,
         holdingsForDate (applyTxs positions (txsFor txs d)) d
            ++ (runAux txs (applyTxs positions (txsFor txs d)) ds).2) := rfl
    rw [hrun] at hh
    rcases List.mem_append.mp hh with hin | hin
    · exact (holdingsForDate_date _ d h hin) ▸ List.mem_cons_self d ds
    · exact List.mem_cons_of_mem d (ih _ h hin)

lemma runAux_ps_date (txs : List Tx) :
    ∀ (dates : List String) (positions : List (String × Position)),
      ∀ ps ∈ (runAux txs positions dates).1, ps.snapshot_date ∈ dates := by
  intro dates
  induction dates with
  | nil => intro positions ps hps; simp [runAux] at hps
  | cons d ds ih =>
    intro positions ps hps
    have hrun : runAux txs positions (d :: ds) =
        ((portfolioOf d (holdingsForDate (applyTxs positions (txsFor txs d)) d)).toList
            ++ (runAux txs (applyTxs positions (txsFor txs d)) ds).1,
         holdingsForDate (applyTxs positions (txsFor txs d)) d
            ++ (runAux txs (applyTxs positions (txsFor txs d)) ds).2) := rfl
    rw [hrun] at hps
    rcases List.mem_append.mp hps with hin | hin
    · have hsome : portfolioOf d (holdingsForDate (applyTxs positions (txsFor txs d)) d)
          = some ps := Option.mem_def.mp (Option.mem_toList.mp hin)
      have := (portfolioOf_some _ _ _ hsome).2
      rw [this]
      exact List.mem_cons_self d ds
    · exact List.mem_cons_of_mem d (ih _ ps hin)

lemma filter_holdings_self (positions : List (String × Position)) (d : String) :
    (holdingsForDate positions d).filter (fun h => h.snapshot_date == d) =
      holdingsForDate positions d :=
  List.filter_eq_self.mpr fun h hh => by
    rw [holdingsForDate_date positions d h hh]
    exact beq_self_eq_true d

lemma runAux_ps_spec (txs : List Tx) :
    ∀ (dates : List String) (positions : List (String × Position)), dates.Nodup →
      ∀ ps ∈ (runAux txs positions dates).1,
        ((runAux txs positions dates).2.filter
            (fun h => h.snapshot_date == ps.snapshot_date)) ≠ [] ∧
        ps = mkPortfolio ps.snapshot_date
          ((runAux txs positions dates).2.filter
            (fun h => h.snapshot_date == ps.snapshot_date)) := by
  intro dates
  induction dates with
  | nil => intro positions _ ps hps; simp [runAux] at hps
  | cons d ds ih =>
    intro positions hnd ps hps
    have hdns : d ∉ ds := (List.nodup_cons.mp hnd).1
    have hnd2 : ds.Nodup := (List.nodup_cons.mp hnd).2
    have hrun : runAux txs positions (d :: ds) =
        ((portfolioOf d (holdingsForDate (applyTxs positions (txsFor txs d)) d)).toList
            ++ (runAux txs (applyTxs positions (txsFor txs d)) ds).1,
         holdingsForDate (applyTxs positions (txsFor txs d)) d
            ++ (runAux txs (applyTxs positions (txsFor txs d)) ds).2) := rfl
    rw [hrun] at hps ⊢
    rcases List.mem_append.mp hps with hin | hin
    · have hsome : portfolioOf d (holdingsForDate (applyTxs positions (txsFor txs d)) d)
          = some ps := Option.mem_def.mp (Option.mem_toList.mp hin)
      obtain ⟨hne0, hpseq⟩ := portfolioOf_some _ _ _ hsome
      have hdate : ps.snapshot_date = d := by rw [hpseq]; rfl
      have hrest : (runAux txs (applyTxs positions (txsFor txs d)) ds).2.filter
          (fun h => h.snapshot_date == ps.snapshot_date) = [] :=
        List.filter_eq_nil_iff.mpr fun h hh => by
          have hmem : h.snapshot_date ∈ ds := runAux_holding_date txs ds _ h hh
          rw [hdate]
          intro hbeq
          exact hdns ((beq_iff_eq.mp hbeq) ▸ hmem)
      rw [List.filter_append, hrest, List.append_nil, hdate, filter_holdings_self]
      exact ⟨hne0, by rw [hpseq]⟩
    · obtain ⟨hne0, hpseq⟩ := ih _ hnd2 ps hin
      have hdate : ps.snapshot_date ∈ ds := runAux_ps_date txs ds _ ps hin
      have hfront : (holdingsForDate (applyTxs positions (txsFor txs d)) d).filter
          (fun h => h.snapshot_date == ps.snapshot_date) = [] :=
        List.filter_eq_nil_iff.mpr fun h hh => by
          rw [holdingsForDate_date _ d h hh]
          intro hbeq
          exact hdns ((beq_iff_eq.mp hbeq) ▸ hdate)
      rw [List.filter_append, hfront, List.nil_append]
      exact ⟨hne0, hpseq⟩

lemma runAux_ps_count (txs : List Tx) :
    ∀ (dates : List String) (positions : List (String × Position)), dates.Nodup →
      ∀ h ∈ (runAux txs positions dates).2,
        (((runAux txs positions dates).1.filter
          (fun ps => ps.snapshot_date == h.snapshot_date)).length = 1) := by
  intro dates
  induction dates with
  | nil => intro positions _ h hh; simp [runAux] at hh
  | cons d ds ih =>
    intro positions hnd h hh
    have hdns : d ∉ ds := (List.nodup_cons.mp hnd).1
    have hnd2 : ds.Nodup := (List.nodup_cons.mp hnd).2
    have hrun : runAux txs positions (d :: ds) =
        ((portfolioOf d (holdingsForDate (applyTxs positions (txsFor txs d)) d)).toList
            ++ (runAux txs (applyTxs positions (txsFor txs d)) ds).1,
         holdingsForDate (applyTxs positions (txsFor txs d)) d
            ++ (runAux txs (applyTxs positions (txsFor txs d)) ds).2) := rfl
    rw [hrun] at hh ⊢
    rw [List.filter_append, List.length_append]
    rcases List.mem_append.mp hh with hin | hin
    · have hdate : h.snapshot_date = d := holdingsForDate_date _ d h hin
      have hsome : portfolioOf d (holdingsForDate (applyTxs positions (txsFor txs d)) d)
          = some (mkPortfolio d (holdingsForDate (applyTxs positions (txsFor txs d)) d)) :=
        portfolioOf_of_ne_nil d _ (List.ne_nil_of_mem hin)
      have hfront : ((portfolioOf d (holdingsForDate (applyTxs positions (txsFor txs d)) d)).toList.filter
          (fun ps => ps.snapshot_date == h.snapshot_date)).length = 1 := by
        rw [hsome, hdate]
        show ([mkPortfolio d _].filter (fun ps => ps.snapshot_date == d)).length = 1
        rw [List.filter_cons_of_pos]
        · rfl
        · exact beq_self_eq_true d
      have hrest : ((runAux txs (applyTxs positions (txsFor txs d)) ds).1.filter
          (fun ps => ps.snapshot_date == h.snapshot_date)).length = 0 := by
        rw [List.length_eq_zero]
        refine List.filter_eq_nil_iff.mpr fun ps hps => ?_
        have hmem : ps.snapshot_date ∈ ds := runAux_ps_date txs ds _ ps hps
        rw [hdate]
        intro hbeq
        exact hdns ((beq_iff_eq.mp hbeq) ▸ hmem)
      rw [hfront, hrest]
    · have hdate : h.snapshot_date ∈ ds := runAux_holding_date txs ds _ h hin
      have hfront : ((portfolioOf d (holdingsForDate (applyTxs positions (txsFor txs d)) d)).toList.filter
          (fun ps => ps.snapshot_date == h.snapshot_date)).length = 0 := by
        rw [List.length_eq_zero]
        refine List.filter_eq_nil_iff.mpr fun ps hps => ?_
        have hsome : portfolioOf d (holdingsForDate (applyTxs positions (txsFor txs d)) d)
            = some ps := Option.mem_def.mp (Option.mem_toList.mp hps)
        have hps_d : ps.snapshot_date = d := by rw [(portfolioOf_some _ _ _ hsome).2]; rfl
        rw [hps_d]
        intro hbeq
        exact hdns ((beq_iff_eq.mp hbeq).symm ▸ hdate)
      rw [hfront, ih _ hnd2 h hin]

/-! ## Concrete run evaluations -/

lemma get_VTI_0902 : get_closing_price "VTI" "2025-09-02" = some (315.99 : ℚ) := by
  simp [get_closing_price, FUND_TICKER_MAP, voyaAlias, priceFor, HISTORICAL_PRICES, List.lookup]

lemma run_ex : runSnapshots [exTx] exDates = ([exPS], [exHolding]) := by
  have h10 : (0:ℚ) < 10 := by norm_num
  have habs : |(-3000:ℚ)| = 3000 := by rw [abs_of_nonpos] <;> norm_num
  have h1 : applyTxs [] (txsFor [exTx] "2025-09-02") = [("VTI||Brokerage", exPos)] := by
    simp [txsFor, applyTxs, applyTx, txKey, exTx, List.lookup, updatePosition, h10, habs, exPos]
  have heps : ¬(|(10:ℚ)| < epsilon) := by
    rw [abs_of_nonneg (by norm_num : (0:ℚ) ≤ 10)]
    norm_num [epsilon]
  have h2 : holdingsForDate [("VTI||Brokerage", exPos)] "2025-09-02" = [exHolding] := by
    simp [holdingsForDate, List.filterMap_cons, holdingOf, exPos, heps, get_VTI_0902,
      mkHolding, exHolding]
    norm_num [epsilon]
  have h3 : portfolioOf "2025-09-02" [exHolding] = some exPS := by
    simp [portfolioOf, mkPortfolio, exHolding, exPS]
    norm_num [round2, round4, round_eq]
  show runAux [exTx] [] exDates = ([exPS], [exHolding])
  rw [show exDates = ["2025-09-02"] from rfl]
  show ((portfolioOf "2025-09-02"
      (holdingsForDate (applyTxs [] (txsFor [exTx] "2025-09-02")) "2025-09-02")).toList ++ [],
    holdingsForDate (applyTxs [] (txsFor [exTx] "2025-09-02")) "2025-09-02" ++ []) = _
  rw [h1, h2, h3]
  rfl

lemma run_frac : runSnapshots [fracTx] exDates = ([fracPS], [fracHolding]) := by
  have hu : (0:ℚ) < 0.001 := by norm_num
  have habs : |(-3:ℚ)| = 3 := by rw [abs_of_nonpos] <;> norm_num
  have h1 : applyTxs [] (txsFor [fracTx] "2025-09-02") = [("VTI||Brokerage", fracPos)] := by
    simp [txsFor, applyTxs, applyTx, txKey, fracTx, List.lookup, updatePosition, hu, habs, fracPos]
  have heps : ¬(|(0.001:ℚ)| < epsilon) := by
    rw [abs_of_nonneg (by norm_num : (0:ℚ) ≤ 0.001)]
    norm_num [epsilon]
  have h2 : holdingsForDate [("VTI||Brokerage", fracPos)] "2025-09-02" = [fracHolding] := by
    simp [holdingsForDate, List.filterMap_cons, holdingOf, fracPos, heps, get_VTI_0902,
      mkHolding, fracHolding]
    norm_num [epsilon]
  have h3 : portfolioOf "2025-09-02" [fracHolding] = some fracPS := by
    simp [portfolioOf, mkPortfolio, fracHolding, fracPS]
    norm_num [round2, round4, round_eq]
  show runAux [fracTx] [] exDates = ([fracPS], [fracHolding])
  rw [show exDates = ["2025-09-02"] from rfl]
  show ((portfolioOf "2025-09-02"
      (holdingsForDate (applyTxs [] (txsFor [fracTx] "2025-09-02")) "2025-09-02")).toList ++ [],
    holdingsForDate (applyTxs [] (txsFor [fracTx] "2025-09-02")) "2025-09-02" ++ []) = _
  rw [h1, h2, h3]
  rfl

/-! ## Claim theorems (aggregation) -/

/-- Claim C7 (amended): every emitted portfolio snapshot carries the sum of
the market values of the holdings of its date rounded to 2 decimal places,
a date with no qualifying holdings yields no portfolio snapshot, and every
emitted holding has exactly one portfolio snapshot for its date. -/
theorem claim_C7 (txs : List Tx) (dates : List String) (hnd : dates.Nodup) :
    (∀ ps ∈ (runSnapshots txs dates).1,
      ps.total_market_value =
        round2 (((holdingsOn txs dates ps.snapshot_date).map Holding.market_value).sum)) ∧
    (∀ d : String, holdingsOn txs dates d = [] →
      ∀ ps ∈ (runSnapshots txs dates).1, ps.snapshot_date ≠ d) ∧
    (∀ h ∈ (runSnapshots txs dates).2,
      (((runSnapshots txs dates).1.filter
        (fun ps => ps.snapshot_date == h.snapshot_date)).length = 1)) := by
  refine ⟨?_, ?_, ?_⟩
  · intro ps hps
    have hspec := (runAux_ps_spec txs dates [] hnd ps hps).2
    conv_lhs => rw [hspec]
    rfl
  · intro d hempty ps hps hdate
    have hne := (runAux_ps_spec txs dates [] hnd ps hps).1
    rw [hdate] at hne
    exact hne hempty
  · intro h hh
    exact runAux_ps_count txs dates [] hnd h hh

/-- Claim C7 witness: the single-acquisition run on 2025-09-02, where the
portfolio total is the rounded market-value sum of its one holding. -/
theorem claim_C7_witness :
    exPS ∈ (runSnapshots [exTx] exDates).1 ∧
    exPS.total_market_value =
      round2 (((holdingsOn [exTx] exDates exPS.snapshot_date).map Holding.market_value).sum) := by
  have hmem : exPS ∈ (runSnapshots [exTx] exDates).1 := by
    rw [run_ex]
    exact List.mem_singleton.mpr rfl
  exact ⟨hmem, (claim_C7 [exTx] exDates (by simp [exDates])).1 exPS hmem⟩

/-- Claim C7 counterexample: with a 0.001-share position the single holding
carries market value 0.31599 while the portfolio snapshot of the same date
stores the rounded 0.32, so the portfolio total does not equal the plain
sum of the market values of its holdings. -/
theorem claim_C7_counterexample :
    (runSnapshots [fracTx] exDates).1 = [fracPS] ∧
    holdingsOn [fracTx] exDates fracPS.snapshot_date = [fracHolding] ∧
    fracPS.total_market_value ≠ ([fracHolding].map Holding.market_value).sum := by
  refine ⟨?_, ?_, ?_⟩
  · rw [run_frac]
  · show ((runSnapshots [fracTx] exDates).2.filter
      (fun h => h.snapshot_date == fracPS.snapshot_date)) = [fracHolding]
    rw [run_frac]
    simp [fracHolding, fracPS]
  · simp [fracPS, fracHolding]
    norm_num

/-- Claim C8: every emitted portfolio snapshot stores its totals rounded to
2 decimal places, and its gain/loss percent is the percent ratio rounded to
4 decimal places when the total cost basis is positive and 0 when the total
cost basis is 0. -/
theorem claim_C8 (txs : List Tx) (dates : List String) (hnd : dates.Nodup) :
    ∀ ps ∈ (runSnapshots txs dates).1,
      ps.total_market_value =
        round2 (((holdingsOn txs dates ps.snapshot_date).map Holding.market_value).sum) ∧
      ps.total_cost_basis =
        round2 (((holdingsOn txs dates ps.snapshot_date).map Holding.cost_basis).sum) ∧
      ps.total_gain_loss =
        round2 (((holdingsOn txs dates ps.snapshot_date).map Holding.market_value).sum -
          ((holdingsOn txs dates ps.snapshot_date).map Holding.cost_basis).sum) ∧
      (0 < ((holdingsOn txs dates ps.snapshot_date).map Holding.cost_basis).sum →
        ps.total_gain_loss_percent =
          round4 ((((holdingsOn txs dates ps.snapshot_date).map Holding.market_value).sum -
            ((holdingsOn txs dates ps.snapshot_date).map Holding.cost_basis).sum) /
            ((holdingsOn txs dates ps.snapshot_date).map Holding.cost_basis).sum * 100)) ∧
      (((holdingsOn txs dates ps.snapshot_date).map Holding.cost_basis).sum = 0 →
        ps.total_gain_loss_percent = 0) := by
  intro ps hps
  have hspec := (runAux_ps_spec txs dates [] hnd ps hps).2
  refine ⟨?_, ?_, ?_, ?_, ?_⟩
  · conv_lhs => rw [hspec]
    rfl
  · conv_lhs => rw [hspec]
    rfl
  · conv_lhs => rw [hspec]
    rfl
  · intro hpos
    conv_lhs => rw [hspec]
    rw [(mkPortfolio_fields _ _).2.2.2.2]
    rw [if_pos (show 0 < (List.map Holding.cost_basis
      (List.filter (fun h => h.snapshot_date == ps.snapshot_date)
        (runAux txs [] dates).2)).sum from hpos)]
    rfl
  · intro hz
    conv_lhs => rw [hspec]
    rw [(mkPortfolio_fields _ _).2.2.2.2]
    rw [show (List.map Holding.cost_basis
      (List.filter (fun h => h.snapshot_date == ps.snapshot_date)
        (runAux txs [] dates).2)).sum = 0 from hz]
    rw [if_neg (lt_irrefl (0:ℚ))]
    exact round4_zero

/-- Claim C8 witness: the single-acquisition run, whose portfolio snapshot
stores gain/loss percent round4(159.9 / 3000 x 100) = 5.33. -/
theorem claim_C8_witness :
    exPS ∈ (runSnapshots [exTx] exDates).1 ∧
    exPS.total_gain_loss_percent =
      round4 ((((holdingsOn [exTx] exDates exPS.snapshot_date).map Holding.market_value).sum -
        ((holdingsOn [exTx] exDates exPS.snapshot_date).map Holding.cost_basis).sum) /
        ((holdingsOn [exTx] exDates exPS.snapshot_date).map Holding.cost_basis).sum * 100) := by
  have hmem : exPS ∈ (runSnapshots [exTx] exDates).1 := by
    rw [run_ex]
    exact List.mem_singleton.mpr rfl
  have hpos : 0 < ((holdingsOn [exTx] exDates exPS.snapshot_date).map Holding.cost_basis).sum := by
    show 0 < (((runSnapshots [exTx] exDates).2.filter
      (fun h => h.snapshot_date == exPS.snapshot_date)).map Holding.cost_basis).sum
    rw [run_ex]
    simp [exHolding, exPS]
  exact ⟨hmem, ((claim_C8 [exTx] exDates (by simp [exDates])) exPS hmem).2.2.2.1 hpos⟩
